import Mathlib

/-
  Verification of domain-server/src/DomainServerAcmeClient.cpp.

  The file below is a shallow embedding of the certificate lifecycle logic of
  DomainServerAcmeClient: the startup decision (init), expiry evaluation
  (checkExpiry, remainingTime), the renewal timer (scheduleRenewalIn), the
  certificate and account-key file operations (readAll, writeAll,
  readCertificate, writeCertificate, createAccountKey), the embedded HTTP
  challenge responder (AcmeHttpChallengeServer::handleHTTPRequest), and the
  shared-ownership self-check join (ChallengeSelfCheck).

  Conventions: file contents are Strings; the file system is a partial map
  from paths to contents (none = the file is missing or cannot be opened);
  time is modelled as Int, the integer tick count of std::chrono::system_clock
  (C++ duration arithmetic on a signed integral representation, with division
  truncating toward zero, i.e. Int.tdiv).
-/

/-- File system model: maps a file path to the content a successful
QFile::open + readAll would produce, or none when the file is missing or
cannot be opened for reading. -/
abbrev FS : Type := String → Option String

/-- acme_lw::Certificate: the full certificate chain PEM and the private key
PEM, as read from or written to the certificate file pair. -/
structure Certificate where
  fullchain : String
  privkey : String
deriving DecidableEq, Repr

/-- readAll(path): opens the file read-only and returns its entire content;
returns the empty string when the file cannot be opened. -/
def readAll (fs : FS) (path : String) : String :=
  match fs path with
  | some content => content
  | none => ""

/-- readCertificate(files): reads the chain from files.front() and the key
from files.back(). The chain path is first, the key path second, matching
getCertFiles. -/
def readCertificate (fs : FS) (chainPath keyPath : String) : Certificate :=
  ⟨readAll fs chainPath, readAll fs keyPath⟩

/-- remainingTime(expiryTime) = (expiryTime - system_clock::now()) * 2 / 3 on
the signed integral tick representation; C++ integral division truncates
toward zero, which is Int.tdiv. -/
def remainingTime (now expiryTime : Int) : Int :=
  Int.tdiv ((expiryTime - now) * 2) 3

/-- Outcome of one startup/renewal cycle entry, as far as the local decision
logic goes: a renewal timer armed for the given duration from now, the start
of certificate generation, a certificate read failure ending the cycle, or
the fatal mixed-existence configuration error ending the cycle. -/
inductive CycleOutcome where
  | armed (duration : Int)
  | generating
  | readError
  | configError (missingPath presentPath : String)
deriving DecidableEq, Repr

/-- DomainServerAcmeClient::checkExpiry: read the certificate pair; if either
content is empty, report a read failure and end the cycle; otherwise compute
remainingTime of the expiry of the chain (getExpiry abstracts
acme_lw parsing of the chain) and either arm the renewal timer with it (when
positive) or begin certificate generation. -/
def checkExpiry (getExpiry : String → Int) (now : Int) (fs : FS)
    (chainPath keyPath : String) : CycleOutcome :=
  let cert := readCertificate fs chainPath keyPath
  if cert.fullchain = "" ∨ cert.privkey = "" then
    CycleOutcome.readError
  else
    let remaining := remainingTime now (getExpiry cert.fullchain)
    if 0 < remaining then
      CycleOutcome.armed remaining
    else
      CycleOutcome.generating

/-- std::stable_partition over the two-element certificate file array
[chainPath, keyPath] with predicate p: elements satisfying p come first,
original relative order preserved in each group; the second component is the
index of the partition point (the first element not satisfying p). -/
def stablePartitionPair (p : String → Bool) (a b : String) : List String × Nat :=
  match p a, p b with
  | true,  true  => ([a, b], 2)
  | true,  false => ([a, b], 1)
  | false, true  => ([b, a], 1)
  | false, false => ([a, b], 0)

/-- The three-way startup decision of DomainServerAcmeClient::init. -/
inductive InitAction where
  | toCheckExpiry (certFiles : List String)
  | toGenerate (certFiles : List String)
  | fatalError (missingPath presentPath : String)
deriving DecidableEq, Repr

/-- DomainServerAcmeClient::init: partition the certificate file array by
QFile::exists (fileEx). All present (partition point at the end) goes to
checkExpiry with the order unchanged; none present (partition point at the
begin) goes to generateCertificate with the order unchanged; otherwise the
file at the partition point is the missing one and the first file the present
one, and init logs a critical configuration error and returns, arming
nothing. -/
def init (fileEx : String → Bool) (chainPath keyPath : String) : InitAction :=
  let parted := stablePartitionPair fileEx chainPath keyPath
  if parted.2 = 2 then
    InitAction.toCheckExpiry parted.1
  else if parted.2 = 0 then
    InitAction.toGenerate parted.1
  else
    InitAction.fatalError (parted.1.getD 1 "") (parted.1.getD 0 "")

/-- One cycle entry from init: dispatch on the startup decision; the mixed
case ends with the configuration error and arms no timer, and the
all-absent case begins generation. -/
def initCycle (getExpiry : String → Int) (now : Int) (fileEx : String → Bool)
    (fs : FS) (chainPath keyPath : String) : CycleOutcome :=
  match init fileEx chainPath keyPath with
  | InitAction.toCheckExpiry certFiles =>
      checkExpiry getExpiry now fs (certFiles.getD 0 "") (certFiles.getD 1 "")
  | InitAction.toGenerate _ => CycleOutcome.generating
  | InitAction.fatalError missingPath presentPath =>
      CycleOutcome.configError missingPath presentPath

/-- The renewal timer, modelled as the collection of pending fire instants so
that statements about double arming are expressible. QTimer::stop cancels the
pending shot; QTimer::start adds a pending single shot. -/
def stopTimer (_pending : List Int) : List Int := []

/-- QTimer::start on the single-shot renewal timer: a shot at the given
absolute instant becomes pending. -/
def startTimer (pending : List Int) (fireAt : Int) : List Int :=
  pending ++ [fireAt]

/-- DomainServerAcmeClient::scheduleRenewalIn(duration): renewalTimer.stop()
then renewalTimer.start(duration), so the timer fires at now + duration. -/
def scheduleRenewalIn (now duration : Int) (pending : List Int) : List Int :=
  startTimer (stopTimer pending) (now + duration)

/-- Reference-count state of one ChallengeSelfCheck object: the number of
live shared_ptr references and the number of times the stored continuation
has run (the destructor body). -/
structure SelfCheckState where
  refs : Nat
  fired : Nat
deriving DecidableEq, Repr

/-- Dropping one shared_ptr reference to the ChallengeSelfCheck object; the
destructor, which invokes the continuation, runs exactly when the last
reference is dropped. -/
def release (s : SelfCheckState) : SelfCheckState :=
  if s.refs = 1 then ⟨0, s.fired + 1⟩
  else ⟨s.refs - 1, s.fired⟩

/-- challengeSelfCheck(callback, urls)->start(): make_shared creates the
object with one reference; start hands one shared_callback copy (one
reference each) to waitForGet for every url; the temporary handle from
make_shared is released when the full statement ends. -/
def startSelfCheck (urls : List String) : SelfCheckState :=
  release ⟨1 + urls.length, 0⟩

/-- Resolution of the outstanding checks: each check resolves (true = first
successful response, false = budget exhausted, which is only logged) and its
shared_callback copy is destroyed, releasing one reference. -/
def resolveChecks (outcomes : List Bool) (s : SelfCheckState) : SelfCheckState :=
  outcomes.foldl (fun st _ => release st) s

/-- One published challenge of AcmeHttpChallengeServer: the location URL and
the key-authorization content. -/
structure Challenge where
  url : String
  content : String
deriving DecidableEq, Repr

/-- The response produced by AcmeHttpChallengeServer::handleHTTPRequest:
status code, body, and the content type when one is passed to respond. -/
structure HTTPResponse where
  status : Nat
  body : String
  contentType : Option String
deriving DecidableEq, Repr

/-- AcmeHttpChallengeServer::addChallenge: appends the challenge to the
published list. -/
def addChallenge (challenges : List Challenge) (location content : String) :
    List Challenge :=
  challenges ++ [⟨location, content⟩]

/-- The diagnostic listing built in the 404 branch: every published challenge
url followed by a newline, accumulated in order. -/
def challengeListing (challenges : List Challenge) : String :=
  challenges.foldl (fun acc ch => acc ++ ch.url ++ "\n") ""

/-- AcmeHttpChallengeServer::handleHTTPRequest: find the first published
challenge whose url equals the request url; on a match respond 200 with the
challenge content as application/octet-stream; otherwise respond 404 with the
diagnostic body listing every published path. -/
def handleHTTPRequest (challenges : List Challenge) (url : String) : HTTPResponse :=
  match challenges.find? (fun ch => ch.url == url) with
  | some ch => ⟨200, ch.content, some "application/octet-stream"⟩
  | none =>
      ⟨404,
       "Resource not found. Url is " ++ url ++ " but expected any of\n" ++
         challengeListing challenges,
       none⟩

/-- Environment of QFile write behaviour: whether a path can be opened for
writing, and how many bytes QFile::write actually writes for given data at a
path (a short write writes fewer than the data length). -/
structure WriteEnv where
  canOpen : String → Bool
  bytesWritten : String → String → Nat

/-- Point update of the file system at one path. -/
def setFile (fs : FS) (path content : String) : FS :=
  fun p => if p = path then some content else fs p

/-- writeAll(data, path): open the file for writing (creating or truncating
it), write the data, and succeed iff the number of bytes written equals the
data size; when the file cannot be opened nothing changes and the result is
false. A short write leaves the written prefix in the file and returns
false. -/
def writeAll (env : WriteEnv) (fs : FS) (data path : String) : FS × Bool :=
  if env.canOpen path then
    let n := min (env.bytesWritten path data) data.length
    (setFile fs path (data.take n), n == data.length)
  else
    (fs, false)

/-- writeCertificate(cert, files): writeAll of the chain to files.front()
and-then (short-circuit) writeAll of the key to files.back(). -/
def writeCertificate (env : WriteEnv) (fs : FS) (cert : Certificate)
    (chainPath keyPath : String) : FS × Bool :=
  let chainRes := writeAll env fs cert.fullchain chainPath
  if chainRes.2 then
    writeAll env chainRes.1 cert.privkey keyPath
  else
    (chainRes.1, false)

/-- Permission set placed on the account key file by createAccountKey:
QFile::ReadOwner | QFile::WriteOwner, i.e. owner-only read and write. -/
inductive Permissions where
  | ownerReadWrite
deriving DecidableEq, Repr

/-- The account key file: its content when the file exists and the
permissions set on it when known. -/
structure AccountKeyFile where
  contents : Option String
  perms : Option Permissions
deriving DecidableEq, Repr

/-- Environment of the account-key path: whether the file can be opened for
writing and for reading, the fresh PEM produced by
acme_lw::toPemString(acme_lw::makePrivateKey()), and the byte count
QFile::write reports for it. -/
structure KeyEnv where
  canOpenWrite : Bool
  canOpenRead : Bool
  newKeyPem : String
  keyBytesWritten : Nat

/-- createAccountKey(file): open for writing (creating the file), set
owner-only read/write permissions, write the fresh key PEM (the write result
is not checked), close, and return true; return false when the file cannot be
opened. -/
def createAccountKey (env : KeyEnv) (file : AccountKeyFile) :
    AccountKeyFile × Bool :=
  if env.canOpenWrite then
    let n := min env.keyBytesWritten env.newKeyPem.length
    (⟨some (env.newKeyPem.take n), some Permissions.ownerReadWrite⟩, true)
  else
    (file, false)

/-- Result of obtaining the account key at the start of generateCertificate:
the key content, or one of the two distinct failures, each of which logs its
own critical message and returns from generateCertificate. -/
inductive EnsureResult where
  | ok (accountKey : String)
  | createError
  | readError
deriving DecidableEq, Repr

/-- The account-key prefix of DomainServerAcmeClient::generateCertificate: if
the file does not exist, createAccountKey it, failing the cycle with the
creation error when that fails; then open the file for reading and read the
key, failing the cycle with the distinct read error when the open fails. -/
def ensureAccountKey (env : KeyEnv) (file : AccountKeyFile) :
    EnsureResult × AccountKeyFile :=
  let afterCreate :=
    if file.contents.isSome then (file, true)
    else createAccountKey env file
  if afterCreate.2 = false then
    (EnsureResult.createError, afterCreate.1)
  else if env.canOpenRead then
    (EnsureResult.ok (afterCreate.1.contents.getD ""), afterCreate.1)
  else
    (EnsureResult.readError, afterCreate.1)

/-- The domain list built in generateCertificate: each configured domain is
pushed through QUrl::toAce before entering the order. -/
def orderDomains (toAce : String → String) (configuredDomains : List String) :
    List String :=
  configuredDomains.map toAce

/-- The arguments the acme_lw challenge callback receives for one challenge
of the order: the domain, the location path, and the key authorization. -/
structure ChallengeCallbackArgs where
  domain : String
  location : String
  keyAuth : String

/-- The self-check URL recorded for one challenge:
"http://" + domain + location. -/
def selfCheckUrl (domain location : String) : String :=
  "http://" ++ domain ++ location

/-- The self-check URL list accumulated by the challenge callback over the
challenges of one order. -/
def recordSelfCheckUrls (challengeArgs : List ChallengeCallbackArgs) :
    List String :=
  challengeArgs.map (fun c => selfCheckUrl c.domain c.location)

/-- Example file system fixture: both certificate files present with
non-empty content. -/
def fsEx : FS :=
  fun p =>
    if p = "chain.pem" then some "CERT"
    else if p = "key.pem" then some "KEY"
    else none

/-- Example file system fixture: the chain file present, the key file
missing. -/
def fsMissingKey : FS :=
  fun p => if p = "chain.pem" then some "CERT" else none

/-- Example challenge fixture: two published challenges, as in the spec
scenario. -/
def chEx : List Challenge :=
  [⟨"/.well-known/acme-challenge/tokenA", "contentA"⟩,
   ⟨"/.well-known/acme-challenge/tokenB", "contentB"⟩]

/-- Example write environment: every path can be opened and every write
completes fully. -/
def envFull : WriteEnv :=
  ⟨fun _ => true, fun _ data => data.length⟩

/-- Example certificate fixture. -/
def certEx : Certificate := ⟨"FULLCHAIN", "PRIVKEY"⟩

/-- Example account key environment: writable, readable, with a fully
written fresh key PEM of six bytes. -/
def keyEnvEx : KeyEnv := ⟨true, true, "KEYPEM", 6⟩

/-- Example absent account key file. -/
def fileAbsent : AccountKeyFile := ⟨none, none⟩

/-- Helper: the truncated two-thirds of the remaining validity is positive
exactly when at least two ticks of validity remain. -/
theorem remainingTime_pos_iff (now expiry : Int) :
    0 < remainingTime now expiry ↔ 2 ≤ expiry - now := by
  unfold remainingTime
  constructor
  · intro h
    by_contra hc
    push_neg at hc
    rcases le_or_lt (expiry - now) 0 with h0 | h1
    · have h2 : (0 : Int) ≤ -((expiry - now) * 2) := by omega
      have h3 := Int.tdiv_nonneg h2 (by omega : (0 : Int) ≤ 3)
      rw [Int.neg_tdiv] at h3
      omega
    · have hd1 : expiry - now = 1 := by omega
      rw [hd1] at h
      have h2 : Int.tdiv (1 * 2) 3 = 0 := by decide
      rw [h2] at h
      exact absurd h (by decide)
  · intro h
    rw [Int.tdiv_eq_ediv (by omega) (by omega)]
    omega

/-- C1 (counterexample): with one tick of remaining validity (expiry 1,
now 0, so expiry − now = 1 > 0), checkExpiry computes the truncated
two-thirds 1 * 2 / 3 = 0, which is not positive, and begins certificate
generation instead of arming the renewal timer, contradicting the claim that
a timer is armed whenever the remaining validity is positive. -/
theorem C1_counterexample :
    0 < (1 : Int) - 0 ∧
    checkExpiry (fun _ => 1) 0 fsEx "chain.pem" "key.pem" =
      CycleOutcome.generating := by
  decide

/-- C1 (amended): when the certificate files read back non-empty, the expiry
evaluation arms the renewal timer for the truncated two-thirds of the
remaining validity, tdiv ((E − now) * 2) 3, whenever that truncated value is
positive — equivalently whenever E − now ≥ 2 ticks — and immediately begins
certificate generation whenever E − now ≤ 1 tick (in particular for every
non-positive remaining validity). -/
theorem C1_expiry_evaluation (getExpiry : String → Int) (now : Int) (fs : FS)
    (chainPath keyPath : String)
    (hchain : readAll fs chainPath ≠ "") (hkey : readAll fs keyPath ≠ "") :
    (2 ≤ getExpiry (readAll fs chainPath) - now →
      checkExpiry getExpiry now fs chainPath keyPath =
        CycleOutcome.armed
          (remainingTime now (getExpiry (readAll fs chainPath)))) ∧
    (getExpiry (readAll fs chainPath) - now ≤ 1 →
      checkExpiry getExpiry now fs chainPath keyPath =
        CycleOutcome.generating) := by
  constructor
  · intro h
    simp only [checkExpiry, readCertificate]
    rw [if_neg (by simp [hchain, hkey])]
    rw [if_pos ((remainingTime_pos_iff now _).mpr h)]
  · intro h
    simp only [checkExpiry, readCertificate]
    rw [if_neg (by simp [hchain, hkey])]
    rw [if_neg (by
      intro hpos
      have := (remainingTime_pos_iff now _).mp hpos
      omega)]

/-- C1 (witness): a certificate expiring at tick 300 with now = 0 arms the
timer for tdiv (300 * 2) 3 = 200 ticks, two-thirds of the remaining
validity. -/
theorem C1_expiry_evaluation_witness :
    checkExpiry (fun _ => 300) 0 fsEx "chain.pem" "key.pem" =
      CycleOutcome.armed 200 := by
  have h := (C1_expiry_evaluation (fun _ => 300) 0 fsEx "chain.pem" "key.pem"
    (by decide) (by decide)).1 (by decide)
  exact h.trans (by decide)

/-- C2: init classifies the certificate file pair by existence into exactly
the three cases: both present goes to expiry evaluation with the paths in
order, neither present begins generation, and a mixed pair produces the fatal
configuration error naming the missing path first and the present path
second, with the cycle ending in the configuration error outcome (no timer
armed, no generation). -/
theorem C2_init_classification (fileEx : String → Bool)
    (getExpiry : String → Int) (now : Int) (fs : FS)
    (chainPath keyPath : String) :
    (fileEx chainPath = true → fileEx keyPath = true →
      init fileEx chainPath keyPath =
        InitAction.toCheckExpiry [chainPath, keyPath]) ∧
    (fileEx chainPath = false → fileEx keyPath = false →
      init fileEx chainPath keyPath =
        InitAction.toGenerate [chainPath, keyPath]) ∧
    (fileEx chainPath = true → fileEx keyPath = false →
      init fileEx chainPath keyPath = InitAction.fatalError keyPath chainPath ∧
      initCycle getExpiry now fileEx fs chainPath keyPath =
        CycleOutcome.configError keyPath chainPath) ∧
    (fileEx chainPath = false → fileEx keyPath = true →
      init fileEx chainPath keyPath = InitAction.fatalError chainPath keyPath ∧
      initCycle getExpiry now fileEx fs chainPath keyPath =
        CycleOutcome.configError chainPath keyPath) := by
  refine ⟨?_, ?_, ?_, ?_⟩ <;> intro h1 h2 <;>
    simp [init, initCycle, stablePartitionPair, h1, h2]

/-- C2 (witness): with only the chain file existing, init reports the fatal
configuration error naming the key file as missing and the chain file as
present. -/
theorem C2_init_classification_witness :
    init (fun p => p == "chain.pem") "chain.pem" "key.pem" =
      InitAction.fatalError "key.pem" "chain.pem" :=
  ((C2_init_classification (fun p => p == "chain.pem") (fun _ => 0) 0 fsEx
      "chain.pem" "key.pem").2.2.1 (by decide) (by decide)).1

/-- C6: expiry evaluation reports the read failure, ending the cycle with
neither a timer armed nor generation started, exactly when the chain or the
key reads back empty — including when a file is missing or unreadable, since
readAll returns the empty string then. -/
theorem C6_empty_read_failure (getExpiry : String → Int) (now : Int) (fs : FS)
    (chainPath keyPath : String) :
    (checkExpiry getExpiry now fs chainPath keyPath = CycleOutcome.readError ↔
      readAll fs chainPath = "" ∨ readAll fs keyPath = "") ∧
    (readAll fs chainPath = "" ∨ readAll fs keyPath = "" →
      ∀ d, checkExpiry getExpiry now fs chainPath keyPath ≠
          CycleOutcome.armed d ∧
        checkExpiry getExpiry now fs chainPath keyPath ≠
          CycleOutcome.generating) := by
  have hpos : readAll fs chainPath = "" ∨ readAll fs keyPath = "" →
      checkExpiry getExpiry now fs chainPath keyPath =
        CycleOutcome.readError := by
    intro hc
    simp only [checkExpiry, readCertificate]
    rw [if_pos (by simpa using hc)]
  constructor
  · constructor
    · intro h
      by_contra hc
      push_neg at hc
      obtain ⟨h1, h2⟩ := hc
      revert h
      simp only [checkExpiry, readCertificate]
      rw [if_neg (by simp [h1, h2])]
      split <;> simp
    · exact hpos
  · intro hc d
    rw [hpos hc]
    exact ⟨by simp, by simp⟩

/-- C6 (witness): with the key file missing, the cycle ends in the read
failure and in particular no timer is armed. -/
theorem C6_empty_read_failure_witness :
    checkExpiry (fun _ => 300) 0 fsMissingKey "chain.pem" "key.pem" =
      CycleOutcome.readError ∧
    checkExpiry (fun _ => 300) 0 fsMissingKey "chain.pem" "key.pem" ≠
      CycleOutcome.armed 200 := by
  have h := C6_empty_read_failure (fun _ => 300) 0 fsMissingKey
    "chain.pem" "key.pem"
  exact ⟨h.1.mpr (by decide), (h.2 (by decide) 200).1⟩

/-- C7: arming the renewal scheduler twice in succession leaves exactly one
pending timer shot, firing at the instant implied by the second call, because
scheduleRenewalIn stops the previous timer before starting the new one; the
third conjunct records that arming cancels every previously pending shot
whatever the prior state was. -/
theorem C7_arm_twice (pending : List Int) (now1 d1 now2 d2 : Int) :
    scheduleRenewalIn now2 d2 (scheduleRenewalIn now1 d1 pending) =
      [now2 + d2] ∧
    (scheduleRenewalIn now2 d2 (scheduleRenewalIn now1 d1 pending)).length
      = 1 ∧
    (∀ anyPending : List Int,
      scheduleRenewalIn now2 d2 anyPending = [now2 + d2]) :=
  ⟨rfl, rfl, fun _ => rfl⟩

/-- Helper: resolving fewer checks than there are references leaves the
continuation unfired, with one reference gone per resolved check. -/
theorem resolveChecks_partial (outcomes : List Bool) :
    ∀ r f : Nat, outcomes.length < r →
      resolveChecks outcomes ⟨r, f⟩ = ⟨r - outcomes.length, f⟩ := by
  induction outcomes with
  | nil =>
      intro r f _
      simp [resolveChecks]
  | cons b rest ih =>
      intro r f h
      have hr : r ≠ 1 := by
        simp at h
        omega
      have hrel : release ⟨r, f⟩ = ⟨r - 1, f⟩ := by
        simp [release, hr]
      have hstep : resolveChecks (b :: rest) ⟨r, f⟩ =
          resolveChecks rest (release ⟨r, f⟩) := rfl
      rw [hstep, hrel, ih (r - 1) f (by simp at h; omega)]
      congr 1
      simp
      omega

/-- Helper: resolving exactly as many checks as there are references fires
the continuation exactly once, as the last release empties the count. -/
theorem resolveChecks_complete (outcomes : List Bool) :
    ∀ f : Nat, 0 < outcomes.length →
      resolveChecks outcomes ⟨outcomes.length, f⟩ = ⟨0, f + 1⟩ := by
  induction outcomes with
  | nil =>
      intro f h
      simp at h
  | cons b rest ih =>
      intro f _
      have hstep : resolveChecks (b :: rest) ⟨(b :: rest).length, f⟩ =
          resolveChecks rest (release ⟨(b :: rest).length, f⟩) := rfl
      rw [hstep]
      cases hrest : rest with
      | nil =>
          simp [release, resolveChecks]
      | cons c tail =>
          subst hrest
          have hrel : release ⟨(b :: c :: tail).length, f⟩ =
              ⟨(c :: tail).length, f⟩ := by
            simp [release]
          rw [hrel, ih f (by simp)]

/-- C3: for a non-empty set of self-check URLs and any outcome of each
check — the outcomes list records success or failure per URL and is
universally quantified, so a failed check never aborts the others — the
continuation has fired exactly once after all checks resolve, has not fired
while any check is outstanding, and the final state does not depend on which
checks failed. -/
theorem C3_selfcheck_join (urls : List String) (outcomes : List Bool)
    (hlen : outcomes.length = urls.length) (hne : urls ≠ []) :
    (resolveChecks outcomes (startSelfCheck urls)).fired = 1 ∧
    (∀ k, k < outcomes.length →
      (resolveChecks (outcomes.take k) (startSelfCheck urls)).fired = 0) ∧
    (∀ outcomes2 : List Bool, outcomes2.length = urls.length →
      resolveChecks outcomes2 (startSelfCheck urls) =
        resolveChecks outcomes (startSelfCheck urls)) := by
  have hn : 0 < urls.length := List.length_pos.mpr hne
  have hstart : startSelfCheck urls = ⟨urls.length, 0⟩ := by
    simp only [startSelfCheck, release]
    rw [if_neg (by omega)]
    congr 1
    omega
  have hfull : ∀ outs : List Bool, outs.length = urls.length →
      resolveChecks outs (startSelfCheck urls) = ⟨0, 1⟩ := by
    intro outs houts
    rw [hstart, ← houts]
    exact resolveChecks_complete outs 0 (by omega)
  refine ⟨?_, ?_, ?_⟩
  · rw [hfull outcomes hlen]
  · intro k hk
    rw [hstart]
    have htake : (outcomes.take k).length = k := by
      simp [List.length_take]
      omega
    have := resolveChecks_partial (outcomes.take k) urls.length 0
      (by rw [htake]; omega)
    rw [this]
  · intro outcomes2 h2
    rw [hfull outcomes2 h2, hfull outcomes hlen]

/-- C3 (witness): two URLs with one failed and one successful check still
fire the continuation exactly once. -/
theorem C3_selfcheck_join_witness :
    (resolveChecks [false, true] (startSelfCheck ["u1", "u2"])).fired = 1 :=
  (C3_selfcheck_join ["u1", "u2"] [false, true] (by decide)
    (by decide)).1

/-- C9: with an empty URL set, releasing the coordinator handle at the end of
the start statement immediately fires the continuation exactly once, with no
references left and no checks to resolve, so the cycle proceeds instead of
hanging. -/
theorem C9_empty_selfcheck :
    startSelfCheck [] = ⟨0, 1⟩ ∧
    (startSelfCheck []).fired = 1 ∧
    resolveChecks [] (startSelfCheck []) = ⟨0, 1⟩ := by
  decide

/-- Helper: the listing fold only ever appends to its accumulator. -/
theorem listing_foldl_prefix (cs : List Challenge) :
    ∀ acc : String, ∃ suffix : String,
      List.foldl (fun a x => a ++ x.url ++ "\n") acc cs = acc ++ suffix := by
  induction cs with
  | nil =>
      intro acc
      exact ⟨"", (String.append_empty acc).symm⟩
  | cons c rest ih =>
      intro acc
      obtain ⟨suf, hs⟩ := ih (acc ++ c.url ++ "\n")
      refine ⟨c.url ++ "\n" ++ suf, ?_⟩
      rw [List.foldl_cons, hs]
      simp [String.append_assoc]

/-- Helper: every challenge contributes its url and a newline somewhere in
the listing fold, whatever the accumulator was. -/
theorem listing_foldl_mem (cs : List Challenge) (ch : Challenge)
    (h : ch ∈ cs) :
    ∀ acc : String, ∃ pre post : String,
      List.foldl (fun a x => a ++ x.url ++ "\n") acc cs =
        pre ++ (ch.url ++ "\n") ++ post := by
  induction cs with
  | nil => exact absurd h (List.not_mem_nil ch)
  | cons c rest ih =>
      intro acc
      rcases List.mem_cons.mp h with heq | hmem
      · subst heq
        obtain ⟨suf, hs⟩ := listing_foldl_prefix rest (acc ++ ch.url ++ "\n")
        refine ⟨acc, suf, ?_⟩
        rw [List.foldl_cons, hs]
        simp [String.append_assoc]
      · exact ih hmem (acc ++ c.url ++ "\n")

/-- Helper: every published challenge path occurs in the diagnostic
listing. -/
theorem challengeListing_mem (cs : List Challenge) (ch : Challenge)
    (h : ch ∈ cs) :
    ∃ pre post : String,
      challengeListing cs = pre ++ (ch.url ++ "\n") ++ post :=
  listing_foldl_mem cs ch h ""

/-- C4: the embedded challenge server responds 200 with exactly the
published challenge content and content type application/octet-stream when
the request URL matches a published challenge location, and responds 404
otherwise with a body in which every currently published challenge path
occurs (followed by its newline separator). -/
theorem C4_challenge_http_response (challenges : List Challenge)
    (url : String) :
    ((∃ ch ∈ challenges, ch.url = url) →
      (handleHTTPRequest challenges url).status = 200 ∧
      (handleHTTPRequest challenges url).contentType =
        some "application/octet-stream" ∧
      ∃ ch ∈ challenges, ch.url = url ∧
        (handleHTTPRequest challenges url).body = ch.content) ∧
    ((∀ ch ∈ challenges, ch.url ≠ url) →
      (handleHTTPRequest challenges url).status = 404 ∧
      ∀ ch ∈ challenges, ∃ pre post : String,
        (handleHTTPRequest challenges url).body =
          pre ++ (ch.url ++ "\n") ++ post) := by
  constructor
  · intro hex
    obtain ⟨ch0, hmem0, hurl0⟩ := hex
    cases hfind : challenges.find? (fun x => x.url == url) with
    | none =>
        rw [List.find?_eq_none] at hfind
        have := hfind ch0 hmem0
        simp [hurl0] at this
    | some chf =>
        have hmemf := List.mem_of_find?_eq_some hfind
        have hurlf : chf.url = url := by
          have := List.find?_some hfind
          simpa using this
        have hres : handleHTTPRequest challenges url =
            ⟨200, chf.content, some "application/octet-stream"⟩ := by
          simp [handleHTTPRequest, hfind]
        rw [hres]
        exact ⟨rfl, rfl, chf, hmemf, hurlf, rfl⟩
  · intro hall
    have hnone : challenges.find? (fun x => x.url == url) = none := by
      rw [List.find?_eq_none]
      intro x hx
      simp [hall x hx]
    have hres : handleHTTPRequest challenges url =
        ⟨404,
         "Resource not found. Url is " ++ url ++ " but expected any of\n" ++
           challengeListing challenges,
         none⟩ := by
      simp [handleHTTPRequest, hnone]
    rw [hres]
    refine ⟨rfl, ?_⟩
    intro ch hch
    obtain ⟨pre, post, hp⟩ := challengeListing_mem challenges ch hch
    refine ⟨"Resource not found. Url is " ++ url ++
      " but expected any of\n" ++ pre, post, ?_⟩
    show "Resource not found. Url is " ++ url ++ " but expected any of\n" ++
      challengeListing challenges = _
    rw [hp]
    simp [String.append_assoc]

/-- C4 (witness): with challenges published for tokenA and tokenB, a request
for tokenC yields 404 and a body in which both published paths occur; a
request for tokenA yields 200 with its exact content and octet-stream
type. -/
theorem C4_challenge_http_response_witness :
    (handleHTTPRequest chEx "/.well-known/acme-challenge/tokenC").status
      = 404 ∧
    (∃ pre post : String,
      (handleHTTPRequest chEx "/.well-known/acme-challenge/tokenC").body =
        pre ++ ("/.well-known/acme-challenge/tokenA" ++ "\n") ++ post) ∧
    (∃ pre post : String,
      (handleHTTPRequest chEx "/.well-known/acme-challenge/tokenC").body =
        pre ++ ("/.well-known/acme-challenge/tokenB" ++ "\n") ++ post) ∧
    (handleHTTPRequest chEx "/.well-known/acme-challenge/tokenA").status
      = 200 ∧
    (handleHTTPRequest chEx "/.well-known/acme-challenge/tokenA").body
      = "contentA" := by
  have h404 := (C4_challenge_http_response chEx
    "/.well-known/acme-challenge/tokenC").2 (by decide)
  have h200 := (C4_challenge_http_response chEx
    "/.well-known/acme-challenge/tokenA").1
    ⟨⟨"/.well-known/acme-challenge/tokenA", "contentA"⟩, by decide, rfl⟩
  refine ⟨h404.1, ?_, ?_, h200.1, ?_⟩
  · exact h404.2 ⟨"/.well-known/acme-challenge/tokenA", "contentA"⟩
      (by decide)
  · exact h404.2 ⟨"/.well-known/acme-challenge/tokenB", "contentB"⟩
      (by decide)
  · obtain ⟨ch, hmem, hurl, hbody⟩ := h200.2.2
    rw [hbody]
    have : ch = ⟨"/.well-known/acme-challenge/tokenA", "contentA"⟩ := by
      rcases List.mem_cons.mp hmem with h1 | h1
      · exact h1
      · rcases List.mem_cons.mp h1 with h2 | h2
        · rw [h2] at hurl
          exact absurd hurl (by decide)
        · exact absurd h2 (List.not_mem_nil ch)
    rw [this]

/-- Helper: writeAll succeeds exactly when the path opens and the write is
not short. -/
theorem writeAll_snd_iff (env : WriteEnv) (fs : FS) (data path : String) :
    (writeAll env fs data path).2 = true ↔
      env.canOpen path = true ∧
      data.length ≤ env.bytesWritten path data := by
  unfold writeAll
  by_cases hopen : env.canOpen path
  · rw [if_pos hopen]
    simp [hopen, min_eq_right_iff, Nat.min_comm]
  · rw [if_neg hopen]
    simp [hopen]

/-- Helper: writeAll never removes a file; it can only create or overwrite
the opened path. -/
theorem writeAll_preserves (env : WriteEnv) (fs : FS) (data path p : String)
    (h : fs p ≠ none) : (writeAll env fs data path).1 p ≠ none := by
  unfold writeAll
  by_cases hopen : env.canOpen path
  · rw [if_pos hopen]
    simp only [setFile]
    by_cases hp : p = path
    · simp [hp]
    · simpa [hp] using h
  · rw [if_neg hopen]
    exact h

/-- Helper: a failed chain write short-circuits writeCertificate. -/
theorem writeCertificate_chain_first (env : WriteEnv) (fs : FS)
    (cert : Certificate) (chainPath keyPath : String)
    (h : (writeAll env fs cert.fullchain chainPath).2 = false) :
    writeCertificate env fs cert chainPath keyPath =
      ((writeAll env fs cert.fullchain chainPath).1, false) := by
  simp only [writeCertificate]
  rw [h]
  simp

/-- C5: writeCertificate writes the chain first and the key only after the
chain write fully succeeded (a failed or short chain write short-circuits,
leaving the key file untouched and returning false); it returns true exactly
when both paths open and both writes are complete, a short write counting as
failure; and it never deletes a file — every path that existed before still
exists after, whatever the outcome. -/
theorem C5_write_certificate (env : WriteEnv) (fs : FS) (cert : Certificate)
    (chainPath keyPath : String) :
    ((writeCertificate env fs cert chainPath keyPath).2 = true ↔
      (env.canOpen chainPath = true ∧
       cert.fullchain.length ≤ env.bytesWritten chainPath cert.fullchain ∧
       env.canOpen keyPath = true ∧
       cert.privkey.length ≤ env.bytesWritten keyPath cert.privkey)) ∧
    ((writeAll env fs cert.fullchain chainPath).2 = false →
      writeCertificate env fs cert chainPath keyPath =
        ((writeAll env fs cert.fullchain chainPath).1, false)) ∧
    (∀ p, fs p ≠ none →
      (writeCertificate env fs cert chainPath keyPath).1 p ≠ none) := by
  refine ⟨?_, writeCertificate_chain_first env fs cert chainPath keyPath, ?_⟩
  · unfold writeCertificate
    by_cases hchain : (writeAll env fs cert.fullchain chainPath).2
    · rw [if_pos hchain]
      rw [writeAll_snd_iff]
      have h1 := (writeAll_snd_iff env fs cert.fullchain chainPath).mp hchain
      constructor
      · intro h2
        exact ⟨h1.1, h1.2, h2.1, h2.2⟩
      · intro h2
        exact ⟨h2.2.2.1, h2.2.2.2⟩
    · rw [if_neg hchain]
      constructor
      · intro hcontra
        simp at hcontra
      · intro h2
        exact absurd ((writeAll_snd_iff env fs cert.fullchain chainPath).mpr
          ⟨h2.1, h2.2.1⟩) hchain
  · intro p hp
    unfold writeCertificate
    by_cases hchain : (writeAll env fs cert.fullchain chainPath).2
    · rw [if_pos hchain]
      exact writeAll_preserves env _ cert.privkey keyPath p
        (writeAll_preserves env fs cert.fullchain chainPath p hp)
    · rw [if_neg hchain]
      exact writeAll_preserves env fs cert.fullchain chainPath p hp

/-- C5 (witness): with a fully-writable environment the write succeeds, and
the previously existing chain file still exists afterwards. -/
theorem C5_write_certificate_witness :
    (writeCertificate envFull fsEx certEx "chain.pem" "key.pem").2 = true ∧
    (writeCertificate envFull fsEx certEx "chain.pem" "key.pem").1
      "chain.pem" ≠ none := by
  have h := C5_write_certificate envFull fsEx certEx "chain.pem" "key.pem"
  exact ⟨h.1.mpr (by decide), h.2.2 "chain.pem" (by decide)⟩

/-- C8: obtaining the account key fails with the creation error exactly when
the key file is absent and cannot be created; a freshly created key file
carries owner-only read/write permissions and the new key PEM; the read
failure is a distinct error kind and occurs exactly when the file cannot be
opened for reading after the creation step succeeded or was unnecessary; and
an existing key file is read back unchanged. -/
theorem C8_account_key (env : KeyEnv) (file : AccountKeyFile) :
    ((ensureAccountKey env file).1 = EnsureResult.createError ↔
      file.contents = none ∧ env.canOpenWrite = false) ∧
    ((ensureAccountKey env file).1 = EnsureResult.readError ↔
      env.canOpenRead = false ∧
      (file.contents = none → env.canOpenWrite = true)) ∧
    (file.contents = none → env.canOpenWrite = true →
      (ensureAccountKey env file).2.perms = some Permissions.ownerReadWrite ∧
      (ensureAccountKey env file).2.contents =
        some (env.newKeyPem.take (min env.keyBytesWritten
          env.newKeyPem.length))) ∧
    (∀ key, file.contents = some key → env.canOpenRead = true →
      (ensureAccountKey env file).1 = EnsureResult.ok key ∧
      (ensureAccountKey env file).2 = file) ∧
    EnsureResult.createError ≠ EnsureResult.readError := by
  cases hc : file.contents with
  | some k =>
      cases hr : env.canOpenRead <;> cases hw : env.canOpenWrite <;>
        simp [ensureAccountKey, createAccountKey, hc, hr, hw]
  | none =>
      cases hr : env.canOpenRead <;> cases hw : env.canOpenWrite <;>
        simp [ensureAccountKey, createAccountKey, hc, hr, hw]

/-- C8 (witness): with the key file absent and a writable, readable path,
the created file carries owner-only read/write permissions and the fresh
key, and the cycle obtains that key. -/
theorem C8_account_key_witness :
    (ensureAccountKey keyEnvEx fileAbsent).2.perms =
      some Permissions.ownerReadWrite ∧
    (ensureAccountKey keyEnvEx fileAbsent).2.contents = some "KEYPEM" := by
  have h := (C8_account_key keyEnvEx fileAbsent).2.2.1 (by decide) (by decide)
  exact ⟨h.1, h.2.trans (by decide)⟩

/-- C10: every domain entering the certificate order is the
ASCII-Compatible-Encoding image under QUrl::toAce of some configured domain,
and — given that the challenge callback only ever reports domains of the
order — every recorded self-check URL is built from such an ACE form, never
from a raw configured name. -/
theorem C10_domains_ace (toAce : String → String)
    (configuredDomains : List String)
    (challengeArgs : List ChallengeCallbackArgs)
    (hc : ∀ c ∈ challengeArgs,
      c.domain ∈ orderDomains toAce configuredDomains) :
    (∀ d ∈ orderDomains toAce configuredDomains,
      ∃ raw ∈ configuredDomains, d = toAce raw) ∧
    (∀ u ∈ recordSelfCheckUrls challengeArgs,
      ∃ raw ∈ configuredDomains, ∃ loc : String,
        u = "http://" ++ toAce raw ++ loc) := by
  constructor
  · intro d hd
    simp only [orderDomains, List.mem_map] at hd
    obtain ⟨raw, hraw, hd⟩ := hd
    exact ⟨raw, hraw, hd.symm⟩
  · intro u hu
    simp only [recordSelfCheckUrls, List.mem_map] at hu
    obtain ⟨c, hcmem, hu⟩ := hu
    have hdom := hc c hcmem
    simp only [orderDomains, List.mem_map] at hdom
    obtain ⟨raw, hraw, hdom⟩ := hdom
    refine ⟨raw, hraw, c.location, ?_⟩
    rw [← hu]
    simp [selfCheckUrl, hdom]

/-- C10 (witness): a single configured domain mapped by a concrete ACE
function produces a self-check URL carrying the ACE form. -/
theorem C10_domains_ace_witness :
    ∃ raw ∈ ["d"], ∃ loc : String,
      "http://xn--d/loc" = "http://" ++ ("xn--" ++ raw) ++ loc := by
  have h := (C10_domains_ace (fun s => "xn--" ++ s) ["d"]
    [⟨"xn--d", "/loc", "ka"⟩] (by decide)).2
  exact h "http://xn--d/loc" (by decide)
